import Mathlib

/-!
Shallow embedding of the estrategia-bubx participant tracker
(src/App.tsx, src/services/geminiService.ts, src/types.ts) and proofs
about its filtering, pagination, migration, mutation, stats and AI
advisory entry points.

Strings are modelled as Lean `String`; JavaScript `toLowerCase` is
modelled per-character by `Char.toLower` (ASCII lowering), and
`String.prototype.includes` as substring search over the character
list.  JavaScript numbers appearing in the stats percentage are
modelled as exact rationals.  The `weeks` field is declared in
src/types.ts as a 5-tuple of booleans; we model it as `List Bool` so
that the load-time migration (which receives arrays of arbitrary
length) and the out-of-range array write in `handleUpdate` can be
expressed.
-/

/-- One roster entry, from `Participant` in src/types.ts.  `weeks` is
declared there as a fixed 5-tuple of booleans; modelled as a list so
that pre-migration data and out-of-range writes are representable. -/
structure Participant where
  id : String
  name : String
  whatsapp : String
  weeks : List Bool
deriving DecidableEq

/-- JavaScript `String.prototype.toLowerCase`, modelled per character
(ASCII lowering via `Char.toLower`). -/
def jsToLower (s : String) : String := ⟨s.data.map Char.toLower⟩

/-- JavaScript `String.prototype.trim`: strip leading and trailing
whitespace. -/
def jsTrim (s : String) : String :=
  ⟨((s.data.dropWhile Char.isWhitespace).reverse.dropWhile Char.isWhitespace).reverse⟩

/-- Is `sub` a prefix of `l`?  Helper for substring search. -/
def startsWithCh : List Char → List Char → Bool
  | _, [] => true
  | [], _ :: _ => false
  | c :: cs, d :: ds => c == d && startsWithCh cs ds

/-- Does `l` contain `sub` as a contiguous substring? -/
def hasSubstringCh : List Char → List Char → Bool
  | [], sub => sub.isEmpty
  | c :: cs, sub => startsWithCh (c :: cs) sub || hasSubstringCh cs sub

/-- JavaScript `s.includes(sub)`: `sub` occurs contiguously in `s`. -/
def jsIncludes (s sub : String) : Bool := hasSubstringCh s.data sub.data

/-- Function `filteredData` from src/App.tsx: empty search term (falsy in JS)
returns the store unchanged; otherwise keep the participants whose
lowercased name, or whose whatsapp as stored, contains the lowercased
search term. -/
def filteredData (data : List Participant) (searchTerm : String) : List Participant :=
  if searchTerm = "" then data
  else
    let lower := jsToLower searchTerm
    data.filter (fun item => jsIncludes (jsToLower item.name) lower || jsIncludes item.whatsapp lower)

/-- Modelled from the spec: the filter as claim C1 words it, with the
whatsapp side matched against the search term exactly as typed
(case-sensitively), for comparison against `filteredData`. -/
def specFilter (data : List Participant) (searchTerm : String) : List Participant :=
  if searchTerm = "" then data
  else data.filter (fun item =>
    jsIncludes (jsToLower item.name) (jsToLower searchTerm) || jsIncludes item.whatsapp searchTerm)

/-- JavaScript array element assignment `l[i] = v`.  For `i` within
bounds it overwrites in place; for `i` past the end it extends the
array up to index `i` (JS fills the gap with holes that read as
`undefined`, which every consumer in this code treats as falsy, so the
holes are modelled as `false`). -/
def jsArraySet (l : List Bool) (i : Nat) (v : Bool) : List Bool :=
  if i < l.length then l.set i v
  else l ++ List.replicate (i - l.length) false ++ [v]

/-- The mutation surface of `handleUpdate` in src/App.tsx: the `field`
argument selects `name`, `whatsapp`, or (with a numeric `weekIndex`)
one week flag. -/
inductive UpdateAction where
  | setName (value : String)
  | setWhatsapp (value : String)
  | setWeek (weekIndex : Nat) (value : Bool)
deriving DecidableEq

/-- The per-item body of `handleUpdate`: copy the record, replacing the
selected field; the week branch copies the weeks array and assigns
index `weekIndex` with JS array semantics (no bounds check in the
source). -/
def applyUpdate (a : UpdateAction) (p : Participant) : Participant :=
  match a with
  | .setName v => { p with name := v }
  | .setWhatsapp v => { p with whatsapp := v }
  | .setWeek i v => { p with weeks := jsArraySet p.weeks i v }

/-- Function `handleUpdate` from src/App.tsx: map over the store, rewriting the
item whose `id` matches and leaving every other item untouched. -/
def handleUpdate (data : List Participant) (id : String) (a : UpdateAction) : List Participant :=
  data.map (fun item => if item.id = id then applyUpdate a item else item)

/-- The per-participant migration step from the init effect in
src/App.tsx: pad a short weeks array with `false` to length 5, cut a
long one to its first 5 entries, leave a length-5 one alone.  (The
source also guards `p.weeks && Array.isArray(p.weeks)`; in this typed
model `weeks` is always an array, so the guard is always true.) -/
def migrateParticipant (p : Participant) : Participant :=
  if p.weeks.length < 5 then
    { p with weeks := p.weeks ++ List.replicate (5 - p.weeks.length) false }
  else if p.weeks.length > 5 then
    { p with weeks := p.weeks.take 5 }
  else p

/-- Function `migratedData` from the init effect in src/App.tsx: the migration
step applied to every parsed participant. -/
def migratedData (parsedData : List Participant) : List Participant :=
  parsedData.map migrateParticipant

/-- Function `initializeEmptyData` from src/App.tsx: 50 blank rows, each with a
fresh id drawn from the id supply (uuidv4 in the source, modelled as a
function of the row construction index). -/
def initializeEmptyData (ids : Nat → String) : List Participant :=
  (List.range 50).map (fun i => ⟨ids i, "", "", List.replicate 5 false⟩)

/-- The init effect of src/App.tsx: read the slot; absent slot seeds 50
blank rows; a present slot is parsed (the parse oracle models
`JSON.parse`, `Except.error` modelling a thrown exception, which the
source catches) and migrated; a parse failure falls back to the same
blank seed and is not propagated (this function is total). -/
def loadData (saved : Option String) (parse : String → Except String (List Participant))
    (ids : Nat → String) : List Participant :=
  match saved with
  | none => initializeEmptyData ids
  | some s =>
    match parse s with
    | .ok parsedData => migratedData parsedData
    | .error _ => initializeEmptyData ids

/-- The stats notion of active from src/App.tsx line 161:
`p.name || p.whatsapp`, i.e. JS string truthiness, with no trimming. -/
def jsActive (p : Participant) : Bool := p.name != "" || p.whatsapp != ""

/-- The active-participant predicate of src/services/geminiService.ts
(and of the claim wording for the stats aggregator): name or whatsapp
non-empty after trimming whitespace. -/
def activeTrim (p : Participant) : Bool := jsTrim p.name != "" || jsTrim p.whatsapp != ""

/-- Source expression `curr.weeks.filter(Boolean).length`: the number of true flags. -/
def countPaid (ws : List Bool) : Nat := (ws.filter (fun b => b)).length

/-- JavaScript `Math.round`: round half up, `floor (q + 1/2)`. -/
def jsRound (q : ℚ) : ℤ := ⌊q + 1 / 2⌋

/-- The paid-percentage of the `stats` memo in src/App.tsx: actives by
string truthiness, five week slots per active, `Math.round` of the paid
ratio as a percentage, 0 when there are no slots. -/
def statsPercentage (data : List Participant) : ℤ :=
  let active := data.filter jsActive
  let totalWeeks := active.length * 5
  let paidWeeks := active.foldl (fun acc curr => acc + countPaid curr.weeks) 0
  if totalWeeks = 0 then 0 else jsRound ((paidWeeks : ℚ) / (totalWeeks : ℚ) * 100)

/-- Constant `ITEMS_PER_PAGE` from src/App.tsx. -/
def ITEMS_PER_PAGE : Nat := 20

/-- Source line `totalPages = Math.ceil(filteredData.length / ITEMS_PER_PAGE)`;
over naturals the ceiling of `n / 20` is `(n + 19) / 20`. -/
def totalPages (filteredLen : Nat) : Nat :=
  (filteredLen + (ITEMS_PER_PAGE - 1)) / ITEMS_PER_PAGE

/-- Function `paginatedData` from src/App.tsx:
`filteredData.slice(start, start + ITEMS_PER_PAGE)` with
`start = (currentPage - 1) * ITEMS_PER_PAGE`. -/
def paginatedData (filtered : List Participant) (currentPage : Nat) : List Participant :=
  (filtered.drop ((currentPage - 1) * ITEMS_PER_PAGE)).take ITEMS_PER_PAGE

/-- The page count shown in the pagination footer:
`Math.max(1, totalPages)`. -/
def displayedPageCount (filteredLen : Nat) : Nat := max 1 (totalPages filteredLen)

/-- Modelled from the spec: the page count as claim C6 words it,
`max(1, ceil(n / 20))` with a true rational ceiling. -/
def specPageCount (n : Nat) : Nat := max 1 (Int.ceil ((n : ℚ) / 20)).toNat

/-- The fixed not-enough-data message returned by `analyzeParticipants`
in src/services/geminiService.ts when no participant is active. -/
def noDataMsg : String :=
  "Não há dados suficientes para analisar. Preencha a planilha com alguns nomes."

/-- The fixed connection-error message returned by the catch block of
`analyzeParticipants` in src/services/geminiService.ts. -/
def aiErrorMsg : String :=
  "Erro ao conectar com a IA. Verifique sua chave de API ou tente novamente mais tarde."

/-- One entry of the compact summary built by `analyzeParticipants`. -/
structure ParticipantSummary where
  name : String
  paidWeeks : Nat
  missedWeeks : Nat
deriving DecidableEq

/-- The summary mapping of `analyzeParticipants`: name, count of paid
weeks, and `5 - paid` missed weeks. -/
def summarize (p : Participant) : ParticipantSummary :=
  ⟨p.name, countPaid p.weeks, 5 - countPaid p.weeks⟩

/-- JSON rendering of one summary entry, as `JSON.stringify` lays the
object out. -/
def summaryJson (s : ParticipantSummary) : String :=
  "\x7b\"name\":\"" ++ s.name ++ "\",\"paidWeeks\":" ++ toString s.paidWeeks ++
    ",\"missedWeeks\":" ++ toString s.missedWeeks ++ "\x7d"

/-- Comma-join, as `JSON.stringify` renders array elements. -/
def joinComma : List String → String
  | [] => ""
  | [s] => s
  | s :: rest => s ++ "," ++ joinComma rest

/-- The prompt template of `analyzeParticipants`: the first 50 summary
entries as JSON, a note about how many more exist, wrapped in the fixed
Portuguese instructions. -/
def analysisPrompt (summary : List ParticipantSummary) : String :=
  "Analise os seguintes dados de participantes da Estratégia HUBX. " ++
    "O objetivo é identificar padrões de inadimplência e sugerir ações. Dados (Resumo): " ++
    "[" ++ joinComma ((summary.take 50).map summaryJson) ++ "]" ++
    (if summary.length > 50 then " ... e mais " ++ toString (summary.length - 50) ++ " outros." else " ") ++
    "Forneça um relatório curto e estratégico em Markdown."

/-- What an `analyzeParticipants` call produced: the returned text and
whether the external generation request was issued. -/
structure AnalyzeOutcome where
  text : String
  calledService : Bool
deriving DecidableEq

/-- Function `analyzeParticipants` from src/services/geminiService.ts.  The body
runs inside a try/catch whose handler returns `aiErrorMsg`.  `getClient`
is called first and throws when the API key is absent or empty (JS
falsiness), so that path is caught before the active filter runs.  Then
the roster is filtered to trim-active participants; an empty active set
returns `noDataMsg` without any request.  Otherwise the generation
request is issued with the built prompt; the service oracle `svc`
returns the response text or fails (modelling a rejected request),
failure being caught into `aiErrorMsg`. -/
def analyzeParticipants (apiKey : Option String) (svc : String → Except String String)
    (participants : List Participant) : AnalyzeOutcome :=
  match apiKey with
  | none => ⟨aiErrorMsg, false⟩
  | some key =>
    if key = "" then ⟨aiErrorMsg, false⟩
    else
      let activeParticipants := participants.filter activeTrim
      if activeParticipants.length = 0 then ⟨noDataMsg, false⟩
      else
        match svc (analysisPrompt (activeParticipants.map summarize)) with
        | .ok t => ⟨t, true⟩
        | .error _ => ⟨aiErrorMsg, true⟩

/-- Injective id supply used by witnesses (stands in for uuidv4). -/
def wid (i : Nat) : String := ⟨List.replicate i 'a'⟩

/-- Witness participant: whatsapp holds an upper-case letter, used to
separate case-sensitive matching of the term as typed from matching
against the lowercased term. -/
def pUpper : Participant := ⟨"1", "", "A", List.replicate 5 false⟩

/-- Witness participant: whitespace-only name, all weeks paid; truthy
for the stats filter but inactive after trimming. -/
def pBlankName : Participant := ⟨"x", " ", "", List.replicate 5 true⟩

/-- Witness participant with id "a" and no weeks paid. -/
def pA : Participant := ⟨"a", "Ana", "111", List.replicate 5 false⟩

/-- Witness participant with id "b" and no weeks paid. -/
def pB : Participant := ⟨"b", "Bia", "222", List.replicate 5 false⟩

theorem hasSubstringCh_nil (l : List Char) : hasSubstringCh l [] = true := by
  cases l <;> simp [hasSubstringCh, startsWithCh]

theorem jsIncludes_empty (s : String) : jsIncludes s "" = true := by
  simpa [jsIncludes] using hasSubstringCh_nil s.data

/-- Claim C1 (amended): for every roster and search term, the filter
keeps exactly the participants whose lowercased name or whose whatsapp
(as stored) contains the lowercased search term as a substring, and the
empty search term returns the roster itself, unchanged and in order. -/
theorem C1_filter_characterization (data : List Participant) (t : String) :
    (∀ p, p ∈ filteredData data t ↔
      p ∈ data ∧ (jsIncludes (jsToLower p.name) (jsToLower t) = true ∨
        jsIncludes p.whatsapp (jsToLower t) = true)) ∧
    filteredData data "" = data := by
  refine ⟨fun p => ?_, by simp [filteredData]⟩
  by_cases h : t = ""
  · subst h
    simp [filteredData, jsToLower, jsIncludes_empty]
  · simp only [filteredData, if_neg h, List.mem_filter, Bool.or_eq_true]

/-- Claim C1, counterexample to the claim as stated: participant
`pUpper` has whatsapp "A", and the search term "A" as typed is a
substring of it, so the claim requires `pUpper` in the filter result
(as `specFilter`, the claim-worded filter, indeed computes); but the
code matches the whatsapp against the lowercased term "a" and returns
the empty list. -/
theorem C1_counterexample :
    jsIncludes pUpper.whatsapp "A" = true ∧
    specFilter [pUpper] "A" = [pUpper] ∧
    filteredData [pUpper] "A" = [] := by decide

theorem migrateParticipant_length (p : Participant) :
    (migrateParticipant p).weeks.length = 5 := by
  unfold migrateParticipant
  split
  · next h => simp only [List.length_append, List.length_replicate]; omega
  · next h =>
    split
    · next h' => simp only [List.length_take]; omega
    · next h' => omega

theorem migrateParticipant_of_length (p : Participant) (h : p.weeks.length = 5) :
    migrateParticipant p = p := by
  unfold migrateParticipant
  rw [h]
  norm_num

/-- Claim C3: after the load migration every participant's weeks
sequence has length exactly 5, and running the migration again on the
migrated roster changes nothing. -/
theorem C3_migration_length_and_idem (parsedData : List Participant) :
    (∀ p ∈ migratedData parsedData, p.weeks.length = 5) ∧
    migratedData (migratedData parsedData) = migratedData parsedData := by
  constructor
  · intro p hp
    obtain ⟨q, _, rfl⟩ := List.mem_map.mp hp
    exact migrateParticipant_length q
  · unfold migratedData
    rw [List.map_map]
    exact List.map_congr_left fun q _ =>
      migrateParticipant_of_length _ (migrateParticipant_length q)

/-- Claim C2: the code does not reject an out-of-range week index.
Toggling week index 5 (one past the declared 5-tuple) on participant
"a" silently extends that participant's weeks array to length 6 by the
JS out-of-bounds assignment `newWeeks[5] = value`, contradicting the
declared `[boolean, boolean, boolean, boolean, boolean]` type of
`weeks` and the fail-fast contract. -/
theorem C2_out_of_range_write_extends :
    handleUpdate [pA] "a" (.setWeek 5 true) =
      [⟨"a", "Ana", "111", [false, false, false, false, false, true]⟩] ∧
    (handleUpdate [pA] "a" (.setWeek 5 true)).map (fun p => p.weeks.length) = [6] := by
  decide

theorem handleUpdate_id_absent (data : List Participant) (id : String) (a : UpdateAction)
    (h : ∀ p ∈ data, p.id ≠ id) : handleUpdate data id a = data := by
  unfold handleUpdate
  conv_rhs => rw [← List.map_id data]
  exact List.map_congr_left fun p hp => by simp [h p hp]

/-- Claim C9: updating a field (name or whatsapp) for an id that is not
present in the roster leaves the roster completely unchanged; no error
is raised (the operation is a total function). -/
theorem C9_update_missing_id_noop (data : List Participant) (id : String) (v : String)
    (h : ∀ p ∈ data, p.id ≠ id) :
    handleUpdate data id (.setName v) = data ∧
    handleUpdate data id (.setWhatsapp v) = data :=
  ⟨handleUpdate_id_absent data id _ h, handleUpdate_id_absent data id _ h⟩

/-- Witness for C9 at a concrete roster and an id not occurring in it. -/
theorem C9_witness :
    (∀ p ∈ [pA, pB], p.id ≠ "zzz") ∧
    (handleUpdate [pA, pB] "zzz" (.setName "Carla") = [pA, pB] ∧
     handleUpdate [pA, pB] "zzz" (.setWhatsapp "333") = [pA, pB]) :=
  ⟨by decide, C9_update_missing_id_noop [pA, pB] "zzz" "Carla" (by decide)⟩

/-- Claim C10: for every roster and search term the filtered result is
an order-preserving subsequence of the roster (hence no roster entry is
duplicated); when the roster has no duplicate entries, neither does the
filtered result. -/
theorem C10_filter_sublist (data : List Participant) (t : String) :
    List.Sublist (filteredData data t) data ∧
    (data.Nodup → (filteredData data t).Nodup) := by
  have hs : List.Sublist (filteredData data t) data := by
    unfold filteredData
    split
    · exact List.Sublist.refl data
    · exact List.filter_sublist data
  exact ⟨hs, fun hn => hs.nodup hn⟩

/-- Claim C5, counterexample to the claim as stated: with the API
credential missing, `analyzeParticipants` on the empty roster (whose
active subset is trivially empty) returns the connection-error string,
not the not-enough-data message, because `getClient` runs and throws
before the active filter; no service request is issued either way. -/
theorem C5_counterexample :
    (analyzeParticipants none (fun _ => .error "down") []).text = aiErrorMsg ∧
    (analyzeParticipants none (fun _ => .error "down") []).text ≠ noDataMsg ∧
    (analyzeParticipants none (fun _ => .error "down") []).calledService = false := by
  decide

/-- Claim C5 (amended): on a roster whose trim-active subset is empty,
`analyzeParticipants` never issues a service request; with a non-empty
API credential it returns the fixed not-enough-data message, while with
the credential missing or empty it returns the fixed connection-error
message instead. -/
theorem C5_no_active_no_call (svc : String → Except String String) (ps : List Participant)
    (h : (ps.filter activeTrim).length = 0) :
    (∀ key, key ≠ "" → analyzeParticipants (some key) svc ps = ⟨noDataMsg, false⟩) ∧
    analyzeParticipants none svc ps = ⟨aiErrorMsg, false⟩ ∧
    analyzeParticipants (some "") svc ps = ⟨aiErrorMsg, false⟩ := by
  refine ⟨fun key hk => ?_, rfl, by simp [analyzeParticipants]⟩
  simp [analyzeParticipants, hk, h]

/-- Witness for C5 at the empty roster with and without a credential. -/
theorem C5_witness :
    (([] : List Participant).filter activeTrim).length = 0 ∧
    analyzeParticipants (some "k") (fun _ => .ok "report") [] = ⟨noDataMsg, false⟩ ∧
    analyzeParticipants none (fun _ => .ok "report") [] = ⟨aiErrorMsg, false⟩ :=
  ⟨rfl, (C5_no_active_no_call (fun _ => .ok "report") [] rfl).1 "k" (by decide),
    (C5_no_active_no_call (fun _ => .ok "report") [] rfl).2.1⟩

/-- Claim C7: when the persisted slot is absent, or present but failing
to parse, the store is seeded with exactly 50 blank participants (empty
name and whatsapp, all five week flags false, ids fresh from the
injective id supply); `loadData` is a total function, so the parse
failure never escapes as a crash. -/
theorem C7_seed_on_absent_or_corrupt (saved : Option String)
    (parse : String → Except String (List Participant)) (ids : Nat → String)
    (h : saved = none ∨ ∃ s e, saved = some s ∧ parse s = .error e) :
    loadData saved parse ids = initializeEmptyData ids ∧
    (loadData saved parse ids).length = 50 ∧
    (∀ p ∈ loadData saved parse ids,
      p.name = "" ∧ p.whatsapp = "" ∧ p.weeks = List.replicate 5 false) ∧
    (Function.Injective ids → ((loadData saved parse ids).map Participant.id).Nodup) := by
  have heq : loadData saved parse ids = initializeEmptyData ids := by
    rcases h with rfl | ⟨s, e, rfl, hp⟩
    · rfl
    · simp [loadData, hp]
  refine ⟨heq, ?_, ?_, ?_⟩ <;> rw [heq]
  · simp [initializeEmptyData]
  · intro p hp
    obtain ⟨i, _, rfl⟩ := List.mem_map.mp hp
    exact ⟨rfl, rfl, rfl⟩
  · intro hinj
    unfold initializeEmptyData
    rw [List.map_map]
    exact List.Nodup.map hinj (List.nodup_range 50)

/-- Witness for C7: absent slot, failing parser, injective id supply. -/
theorem C7_witness :
    loadData none (fun _ => Except.error "bad") wid = initializeEmptyData wid ∧
    (loadData none (fun _ => Except.error "bad") wid).length = 50 :=
  ⟨(C7_seed_on_absent_or_corrupt none (fun _ => Except.error "bad") wid (Or.inl rfl)).1,
    (C7_seed_on_absent_or_corrupt none (fun _ => Except.error "bad") wid (Or.inl rfl)).2.1⟩

theorem statsPercentage_eq (data : List Participant) :
    statsPercentage data =
      if (data.filter jsActive).length * 5 = 0 then 0
      else jsRound
        ((((data.filter jsActive).foldl (fun acc curr => acc + countPaid curr.weeks) 0 : ℕ) : ℚ) /
          (((data.filter jsActive).length * 5 : ℕ) : ℚ) * 100) := rfl

theorem foldl_add_countPaid (l : List Participant) (n : Nat) :
    l.foldl (fun acc curr => acc + countPaid curr.weeks) n
      = n + (l.map (fun p => countPaid p.weeks)).sum := by
  induction l generalizing n with
  | nil => simp
  | cons a as ih =>
    simp only [List.foldl_cons, List.map_cons, List.sum_cons, ih]
    omega

theorem sum_map_countPaid_le (l : List Participant) (h : ∀ p ∈ l, p.weeks.length = 5) :
    (l.map (fun p => countPaid p.weeks)).sum ≤ l.length * 5 := by
  induction l with
  | nil => simp
  | cons a as ih =>
    simp only [List.map_cons, List.sum_cons, List.length_cons]
    have h1 : countPaid a.weeks ≤ 5 := by
      have ha := h a (by simp)
      calc countPaid a.weeks ≤ a.weeks.length := List.length_filter_le _ _
        _ = 5 := ha
    have h2 := ih fun p hp => h p (by simp [hp])
    have h3 : (as.length + 1) * 5 = as.length * 5 + 5 := by ring
    omega

theorem jsRound_bounds (q : ℚ) (h0 : 0 ≤ q) (h1 : q ≤ 100) :
    0 ≤ jsRound q ∧ jsRound q ≤ 100 := by
  unfold jsRound
  constructor
  · exact Int.floor_nonneg.mpr (by linarith)
  · have hlt : ⌊q + 1 / 2⌋ < 101 := Int.floor_lt.mpr (by push_cast; linarith)
    omega

/-- Claim C4 (amended): over rosters whose weeks sequences have length
5, the paid-percentage is an integer between 0 and 100, and it is 0
whenever no participant is active in the sense the code computes it
(name or whatsapp non-empty, with no trimming). -/
theorem C4_stats_bounds (data : List Participant)
    (hw : ∀ p ∈ data, p.weeks.length = 5) :
    0 ≤ statsPercentage data ∧ statsPercentage data ≤ 100 ∧
    ((data.filter jsActive).length = 0 → statsPercentage data = 0) := by
  have hw5 : ∀ p ∈ data.filter jsActive, p.weeks.length = 5 :=
    fun p hp => hw p (List.mem_filter.mp hp).1
  rw [statsPercentage_eq]
  by_cases h0 : (data.filter jsActive).length * 5 = 0
  · simp [h0]
  · rw [if_neg h0]
    have hple : (data.filter jsActive).foldl (fun acc curr => acc + countPaid curr.weeks) 0
        ≤ (data.filter jsActive).length * 5 := by
      rw [foldl_add_countPaid]
      simpa using sum_map_countPaid_le _ hw5
    have hpos : (0 : ℚ) < (((data.filter jsActive).length * 5 : ℕ) : ℚ) := by
      exact_mod_cast Nat.pos_of_ne_zero h0
    have hq0 : (0 : ℚ) ≤
        ((((data.filter jsActive).foldl (fun acc curr => acc + countPaid curr.weeks) 0 : ℕ) : ℚ) /
          (((data.filter jsActive).length * 5 : ℕ) : ℚ) * 100) := by positivity
    have hq1 : ((((data.filter jsActive).foldl (fun acc curr => acc + countPaid curr.weeks) 0 : ℕ) : ℚ) /
          (((data.filter jsActive).length * 5 : ℕ) : ℚ) * 100) ≤ 100 := by
      have hr : (((data.filter jsActive).foldl (fun acc curr => acc + countPaid curr.weeks) 0 : ℕ) : ℚ) /
          (((data.filter jsActive).length * 5 : ℕ) : ℚ) ≤ 1 := by
        rw [div_le_one hpos]
        exact_mod_cast hple
      linarith
    have hb := jsRound_bounds _ hq0 hq1
    exact ⟨hb.1, hb.2, fun hl => absurd h0 (by omega)⟩

/-- Witness for C4 at a one-row active roster with no weeks paid. -/
theorem C4_witness :
    pA.weeks.length = 5 ∧ 0 ≤ statsPercentage [pA] ∧ statsPercentage [pA] ≤ 100 :=
  ⟨by decide, (C4_stats_bounds [pA] (by decide)).1, (C4_stats_bounds [pA] (by decide)).2.1⟩

/-- Claim C4, counterexample to the claim as stated: `pBlankName` has a
whitespace-only name, so the claim counts the roster `[pBlankName]` as
having no active participants and requires percentage 0; but the code
filters with untrimmed string truthiness, counts the row as active, and
with all five weeks paid reports 100. -/
theorem C4_counterexample :
    List.filter activeTrim [pBlankName] = [] ∧ statsPercentage [pBlankName] = 100 := by
  constructor
  · decide
  · have hfil : List.filter jsActive [pBlankName] = [pBlankName] := by decide
    have hfold : List.foldl (fun acc curr => acc + countPaid curr.weeks) 0 [pBlankName] = 5 := by
      decide
    rw [statsPercentage_eq, hfil, hfold]
    norm_num [jsRound]

/-- Claim C8: toggling week `i` (in range) for a participant id changes
only that participant's week `i`: positions holding other participants
are returned unchanged, and the matching participant keeps its id, name,
whatsapp and every week flag other than `i`, with week `i` set to the
given value. -/
theorem C8_toggle_isolation (data : List Participant) (id : String) (i : Nat) (v : Bool)
    (hi : i < 5) (hw : ∀ p ∈ data, p.weeks.length = 5) :
    (handleUpdate data id (.setWeek i v)).length = data.length ∧
    ∀ j p, data.get? j = some p →
      (p.id ≠ id → (handleUpdate data id (.setWeek i v)).get? j = some p) ∧
      (p.id = id → ∃ q, (handleUpdate data id (.setWeek i v)).get? j = some q ∧
        q.id = p.id ∧ q.name = p.name ∧ q.whatsapp = p.whatsapp ∧
        q.weeks.length = 5 ∧ q.weeks.get? i = some v ∧
        ∀ k, k ≠ i → q.weeks.get? k = p.weeks.get? k) := by
  constructor
  · simp [handleUpdate]
  · intro j p hj
    have hmem : p ∈ data := List.get?_mem hj
    have hlen : p.weeks.length = 5 := hw p hmem
    have hilt : i < p.weeks.length := by omega
    have hset : jsArraySet p.weeks i v = p.weeks.set i v := by
      unfold jsArraySet
      rw [if_pos hilt]
    have hmap : (handleUpdate data id (.setWeek i v)).get? j
        = some (if p.id = id then applyUpdate (.setWeek i v) p else p) := by
      unfold handleUpdate
      rw [List.get?_map, hj]
      rfl
    constructor
    · intro hne
      rw [hmap, if_neg hne]
    · intro heq
      refine ⟨applyUpdate (.setWeek i v) p, by rw [hmap, if_pos heq],
        rfl, rfl, rfl, ?_, ?_, ?_⟩
      · simp [applyUpdate, hset, List.length_set, hlen]
      · simp only [applyUpdate, hset]
        exact List.get?_set_eq_of_lt v hilt
      · intro k hk
        simp only [applyUpdate, hset]
        exact List.get?_set_ne v _ (Ne.symm hk)

/-- Witness for C8: toggle week 0 of participant "a" in a two-row
roster; the untouched row "b" is returned as is. -/
theorem C8_witness :
    pA.weeks.length = 5 ∧ pB.weeks.length = 5 ∧
    (handleUpdate [pA, pB] "a" (.setWeek 0 true)).length = [pA, pB].length ∧
    (handleUpdate [pA, pB] "a" (.setWeek 0 true)).get? 1 = some pB :=
  ⟨by decide, by decide,
    (C8_toggle_isolation [pA, pB] "a" 0 true (by decide) (by decide)).1,
    (((C8_toggle_isolation [pA, pB] "a" 0 true (by decide) (by decide)).2 1 pB rfl).1
      (by decide))⟩

theorem totalPages_drop_twenty (a : Participant) (as : List Participant) :
    totalPages (a :: as).length = totalPages ((a :: as).drop 20).length + 1 := by
  simp only [totalPages, ITEMS_PER_PAGE, List.length_drop, List.length_cons]
  omega

theorem paginatedData_succ_drop (l : List Participant) (i : Nat) :
    paginatedData l (i + 1 + 1) = paginatedData (l.drop 20) (i + 1) := by
  simp only [paginatedData, ITEMS_PER_PAGE, Nat.add_sub_cancel, List.drop_drop]
  congr 2
  omega

theorem chunks_cover (n : Nat) : ∀ l : List Participant, l.length ≤ n →
    ((List.range (totalPages l.length)).map (fun i => paginatedData l (i + 1))).flatten = l := by
  induction n with
  | zero =>
    intro l h
    have hl : l = [] := List.eq_nil_of_length_eq_zero (by omega)
    subst hl
    simp [totalPages, ITEMS_PER_PAGE]
  | succ n ih =>
    intro l h
    cases l with
    | nil => simp [totalPages, ITEMS_PER_PAGE]
    | cons a as =>
      rw [totalPages_drop_twenty a as, List.range_succ_eq_map, List.map_cons, List.map_map,
        List.flatten_cons]
      have hfirst : paginatedData (a :: as) (0 + 1) = (a :: as).take 20 := by
        simp [paginatedData, ITEMS_PER_PAGE]
      have hrest : (List.range (totalPages ((a :: as).drop 20).length)).map
            ((fun i => paginatedData (a :: as) (i + 1)) ∘ Nat.succ)
          = (List.range (totalPages ((a :: as).drop 20).length)).map
            (fun i => paginatedData ((a :: as).drop 20) (i + 1)) :=
        List.map_congr_left fun i _ => by
          show paginatedData (a :: as) (i + 1 + 1) = _
          exact paginatedData_succ_drop (a :: as) i
      rw [hfirst, hrest, ih ((a :: as).drop 20) (by simp only [List.length_drop, List.length_cons] at h ⊢; omega)]
      exact List.take_append_drop 20 (a :: as)

theorem ceil_div_twenty (n : Nat) : Int.ceil ((n : ℚ) / 20) = (((n + 19) / 20 : Nat) : ℤ) := by
  set m := (n + 19) / 20 with hm
  have h1 : 20 * m ≤ n + 19 := by omega
  have h2 : n ≤ 20 * m := by omega
  have h1q : (20 * m : ℚ) ≤ (n : ℚ) + 19 := by exact_mod_cast h1
  have h2q : (n : ℚ) ≤ (20 * m : ℚ) := by exact_mod_cast h2
  rw [Int.ceil_eq_iff]
  constructor
  · rw [lt_div_iff (by norm_num : (0 : ℚ) < 20)]
    push_cast
    linarith
  · rw [div_le_iff (by norm_num : (0 : ℚ) < 20)]
    push_cast
    linarith

/-- Claim C6: concatenating the pages for page indices 1 through the
displayed page count, in order, reproduces the filtered sequence
exactly, and the displayed page count is `max 1 (ceil (n / 20))` for a
filtered sequence of length n and page size 20. -/
theorem C6_pagination_coverage (l : List Participant) :
    ((List.range (displayedPageCount l.length)).map (fun i => paginatedData l (i + 1))).flatten = l ∧
    displayedPageCount l.length = specPageCount l.length := by
  constructor
  · cases l with
    | nil => simp [displayedPageCount, totalPages, ITEMS_PER_PAGE, paginatedData]
    | cons a as =>
      have h1 : 1 ≤ totalPages (a :: as).length := by
        simp only [totalPages, ITEMS_PER_PAGE, List.length_cons]
        omega
      have hmax : displayedPageCount (a :: as).length = totalPages (a :: as).length := by
        simp only [displayedPageCount]
        omega
      rw [hmax]
      exact chunks_cover (a :: as).length (a :: as) le_rfl
  · simp only [displayedPageCount, specPageCount, totalPages, ITEMS_PER_PAGE, ceil_div_twenty,
      Int.toNat_natCast]

/-- Witness for C10 at a concrete duplicate-free roster. -/
theorem C10_witness :
    ([pA, pB].Nodup) ∧
    (List.Sublist (filteredData [pA, pB] "an") [pA, pB] ∧
     (filteredData [pA, pB] "an").Nodup) :=
  ⟨by decide, (C10_filter_sublist [pA, pB] "an").1,
    (C10_filter_sublist [pA, pB] "an").2 (by decide)⟩

/-- Witness for C1: participant "Ana" matches the term "an" through the
case-insensitive name side, and the empty term returns the roster. -/
theorem C1_witness :
    pA ∈ [pA] ∧
    pA ∈ filteredData [pA] "an" ∧ filteredData [pA] "" = [pA] :=
  ⟨by decide,
    ((C1_filter_characterization [pA] "an").1 pA).mpr ⟨by decide, Or.inl (by decide)⟩,
    (C1_filter_characterization [pA] "an").2⟩
